import Mathlib

set_option autoImplicit false

/-!
Verification of the relationship-count engine of the ohsnap-api repository.

The development embeds, as executable Lean functions, the counting loops of
src/utils/pagination.ts (getPaginatedCount) and src/services/http.ts
(getFastCount, getRepliesCount, getReactionsCount, getFollowCounts in both its
plain and cache-backed form), the backfill pagination loops of
src/jobs/followersBackfill.worker.ts and of the backfill-worker variant kept in
src/services/usernameCache.ts (getAllFollowers, getAllFollowing,
cacheFollowerData, processFidBatch), and the Redis-backed graph cache they
write.  Upstream I/O is modelled by the sequence of outcomes the successive
HTTP calls produce: the TypeScript loops inspect nothing of a response beyond
the fields embedded here, so the loop state and results depend only on that
sequence.
-/

/-- One upstream page response as consumed by the counting loops of
pagination.ts and http.ts: messages is the length of the messages array
(none when the field is absent), nextPageToken the optional continuation
token. -/
structure HttpResp where
  messages : Option Nat
  nextPageToken : Option String
  deriving Repr, DecidableEq

/-- Outcome of one upstream HTTP call: error models a rejected request
(network failure, non-2xx status, or a malformed payload, which httpRequest
rethrows as HttpError). -/
abbrev FetchOutcome := Except Unit HttpResp

/-- JS truthiness of the optional token string, as in the test
hasMore = !!pageToken: undefined and the empty string are falsy. -/
def tokenTruthy : Option String → Bool
  | none => false
  | some s => s ≠ ""

/-- Items contributed by one page: the code runs
totalCount += response.messages.length when messages is present and non-empty,
which adds messages.length in every case (an absent array contributes 0). -/
def msgCount (r : HttpResp) : Nat := r.messages.getD 0

/-- The hasMore flag after one page of getPaginatedCount or getFastCount:
the code sets hasMore = !!pageToken and then forces it to false when
!response.messages || response.messages.length < 1000 (both functions compare
against the literal 1000). -/
def hasMoreAfter (r : HttpResp) : Bool :=
  tokenTruthy r.nextPageToken &&
    (match r.messages with
      | none => false
      | some k => decide (1000 ≤ k))

/-- The while loop of getPaginatedCount (src/utils/pagination.ts).  fetch i is
the outcome of the i-th upstream call, timedOut i the value of the per-page
check Date.now() - startTime > maxTimeMs at the top of iteration i.  The fuel
argument is maxPages minus the pages already processed, so the loop guard
pageCount < maxPages is fuel exhaustion.  The function returns the accumulated
totalCount together with the number of upstream calls issued. -/
def pagedRun (fetch : Nat → FetchOutcome) (timedOut : Nat → Bool) :
    Nat → Nat → Nat → Nat → Nat × Nat
  | 0, _, acc, calls => (acc, calls)
  | fuel + 1, i, acc, calls =>
    if timedOut i then (acc, calls)
    else
      match fetch i with
      | .error _ => (acc, calls + 1)
      | .ok r =>
        let acc' := acc + msgCount r
        if hasMoreAfter r then pagedRun fetch timedOut fuel (i + 1) acc' (calls + 1)
        else (acc', calls + 1)

/-- getPaginatedCount together with the number of upstream calls it issues:
the loop starts with totalCount = 0, pageCount = 0 and maxPages = 100. -/
def getPaginatedCountRun (fetch : Nat → FetchOutcome) (timedOut : Nat → Bool) : Nat × Nat :=
  pagedRun fetch timedOut 100 0 0 0

/-- getPaginatedCount (src/utils/pagination.ts lines 6-56): the returned
totalCount. -/
def getPaginatedCount (fetch : Nat → FetchOutcome) (timedOut : Nat → Bool) : Nat :=
  (getPaginatedCountRun fetch timedOut).1

/-- The while loop of getFastCount (src/services/http.ts lines 23-78).  It is
the same loop shape as getPaginatedCount with maxPages = 1, no wall-clock
check, a requested pageSize of 500 and the same literal-1000 short-page test. -/
def fastRun (fetch : Nat → FetchOutcome) :
    Nat → Nat → Nat → Nat → Nat × Nat
  | 0, _, acc, calls => (acc, calls)
  | fuel + 1, i, acc, calls =>
    match fetch i with
    | .error _ => (acc, calls + 1)
    | .ok r =>
      let acc' := acc + msgCount r
      if hasMoreAfter r then fastRun fetch fuel (i + 1) acc' (calls + 1)
      else (acc', calls + 1)

/-- getFastCount together with the number of upstream calls it issues. -/
def getFastCountRun (fetch : Nat → FetchOutcome) : Nat × Nat :=
  fastRun fetch 1 0 0 0

/-- getFastCount (src/services/http.ts lines 23-78): the returned totalCount. -/
def getFastCount (fetch : Nat → FetchOutcome) : Nat :=
  (getFastCountRun fetch).1

/-- The page a fixed upstream of n edges serves at a given offset with a given
page size: the slice that remains, capped by the page size, with a
continuation token exactly when data remains past the slice. -/
def steadyPage (n pageSize offset : Nat) : HttpResp :=
  ⟨some (min pageSize (n - offset)),
   if offset + min pageSize (n - offset) < n then some "tok" else none⟩

/-- A fixed upstream state holding n edges for the queried subject and edge
type, served pageSize at a time: call i returns the slice at offset
pageSize * i.  This is the common model against which both count strategies
are compared. -/
def steadyFetch (n pageSize : Nat) (i : Nat) : FetchOutcome :=
  .ok (steadyPage n pageSize (pageSize * i))

/-- One page of a pagination run as the upstream reports it: the number of
items it holds and its continuation token. -/
structure Page where
  count : Nat
  token : Option String
  deriving Repr, DecidableEq

/-- Serve a finite sequence of pages: the i-th upstream call returns the i-th
page; a call past the end of the sequence fails. -/
def fetchOfPages (pages : List Page) (i : Nat) : FetchOutcome :=
  match pages[i]? with
  | some p => .ok ⟨some p.count, p.token⟩
  | none => .error ()

/-- The page sequence is one complete pagination run at page size 1000: every
page before the last is full and carries a truthy continuation token, and the
last page either carries no truthy token or is short. -/
def completeRun (pages : List Page) : Prop :=
  (∀ i p, i + 1 < pages.length → pages[i]? = some p →
    p.count = 1000 ∧ tokenTruthy p.token = true) ∧
  (∀ p, pages.getLast? = some p → tokenTruthy p.token = false ∨ p.count < 1000)

/-- A page with fewer than 1000 items never lets the online loops continue. -/
theorem hasMoreAfter_short {k : Nat} (t : Option String) (hk : k < 1000) :
    hasMoreAfter ⟨some k, t⟩ = false := by
  have hk2 : ¬ (1000 ≤ k) := Nat.not_le_of_lt hk
  simp [hasMoreAfter, hk2]

/-- A page whose token is not truthy never lets the online loops continue. -/
theorem hasMoreAfter_no_token {m : Option Nat} {t : Option String}
    (ht : tokenTruthy t = false) : hasMoreAfter ⟨m, t⟩ = false := by
  simp [hasMoreAfter, ht]

/-- One iteration of the getPaginatedCount loop on a successful call when the
deadline has not fired. -/
theorem pagedRun_step_ok (fetch : Nat → FetchOutcome) (timedOut : Nat → Bool)
    (fuel i acc calls : Nat) (r : HttpResp)
    (hti : timedOut i = false) (hf : fetch i = .ok r) :
    pagedRun fetch timedOut (fuel + 1) i acc calls =
      (if hasMoreAfter r then
        pagedRun fetch timedOut fuel (i + 1) (acc + msgCount r) (calls + 1)
       else (acc + msgCount r, calls + 1)) := by
  show (if timedOut i then (acc, calls) else _) = _
  rw [hti, if_neg (by simp), hf]

/-- One iteration of the getPaginatedCount loop on a failing call when the
deadline has not fired. -/
theorem pagedRun_step_err (fetch : Nat → FetchOutcome) (timedOut : Nat → Bool)
    (fuel i acc calls : Nat)
    (hti : timedOut i = false) (hf : fetch i = .error ()) :
    pagedRun fetch timedOut (fuel + 1) i acc calls = (acc, calls + 1) := by
  show (if timedOut i then (acc, calls) else _) = _
  rw [hti, if_neg (by simp), hf]

/-- One iteration of the getFastCount loop on a successful call. -/
theorem fastRun_step_ok (fetch : Nat → FetchOutcome)
    (fuel i acc calls : Nat) (r : HttpResp) (hf : fetch i = .ok r) :
    fastRun fetch (fuel + 1) i acc calls =
      (if hasMoreAfter r then
        fastRun fetch fuel (i + 1) (acc + msgCount r) (calls + 1)
       else (acc + msgCount r, calls + 1)) := by
  show (match fetch i with
    | .error _ => (acc, calls + 1)
    | .ok r =>
      if hasMoreAfter r then fastRun fetch fuel (i + 1) (acc + msgCount r) (calls + 1)
      else (acc + msgCount r, calls + 1)) = _
  rw [hf]

/-- The accumulated total of the getPaginatedCount loop never decreases. -/
theorem pagedRun_fst_ge (fetch : Nat → FetchOutcome) (timedOut : Nat → Bool) :
    ∀ fuel i acc calls, acc ≤ (pagedRun fetch timedOut fuel i acc calls).1 := by
  intro fuel
  induction fuel with
  | zero => intro i acc calls; exact Nat.le_refl _
  | succ fuel ih =>
    intro i acc calls
    by_cases hti : timedOut i = true
    · show (if timedOut i then (acc, calls) else _).1 ≥ acc
      rw [if_pos hti]
    · have hti2 : timedOut i = false := by simpa using hti
      cases hf : fetch i with
      | error e =>
        rw [pagedRun_step_err fetch timedOut fuel i acc calls hti2 (by rw [hf])]
      | ok r =>
        rw [pagedRun_step_ok fetch timedOut fuel i acc calls r hti2 hf]
        by_cases hm : hasMoreAfter r
        · rw [if_pos hm]
          exact Nat.le_trans (Nat.le_add_right acc (msgCount r)) (ih (i + 1) _ _)
        · rw [if_neg hm]
          exact Nat.le_add_right acc (msgCount r)

/-- On a complete pagination run the getPaginatedCount loop visits every
remaining page and adds up exactly their item counts. -/
theorem pagedRun_completeRun (pages : List Page) (timedOut : Nat → Bool)
    (hc : completeRun pages) (ht : ∀ i, timedOut i = false) :
    ∀ fuel i acc calls, i < pages.length → pages.length - i ≤ fuel →
      (pagedRun (fetchOfPages pages) timedOut fuel i acc calls).1 =
        acc + ((pages.drop i).map Page.count).sum := by
  intro fuel
  induction fuel with
  | zero => intro i acc calls hi hfuel; omega
  | succ fuel ih =>
    intro i acc calls hi hfuel
    have hp : pages[i]? = some pages[i] := List.getElem?_eq_getElem hi
    have hdrop : pages.drop i = pages[i] :: pages.drop (i + 1) :=
      List.drop_eq_getElem_cons hi
    have hf : fetchOfPages pages i = .ok ⟨some (pages[i]).count, (pages[i]).token⟩ := by
      simp [fetchOfPages, hp]
    rw [pagedRun_step_ok _ _ fuel i acc calls _ (ht i) hf]
    by_cases hlast : i + 1 < pages.length
    · obtain ⟨hcount, htok⟩ := hc.1 i pages[i] hlast hp
      have hmore : hasMoreAfter ⟨some (pages[i]).count, (pages[i]).token⟩ = true := by
        simp [hasMoreAfter, hcount, htok]
      have hsum : ((pages.drop i).map Page.count).sum =
          (pages[i]).count + ((pages.drop (i + 1)).map Page.count).sum := by
        rw [hdrop, List.map_cons, List.sum_cons]
      rw [hmore, if_pos rfl, ih (i + 1) _ _ hlast (by omega), hsum]
      simp [msgCount]
      omega
    · have hlastp : pages.getLast? = some pages[i] := by
        rw [List.getLast?_eq_getElem?]
        have hidx : pages.length - 1 = i := by omega
        rw [hidx, hp]
      have hmore : hasMoreAfter ⟨some (pages[i]).count, (pages[i]).token⟩ = false := by
        rcases hc.2 pages[i] hlastp with h | h
        · exact hasMoreAfter_no_token h
        · exact hasMoreAfter_short _ h
      have hnil : pages.drop (i + 1) = [] := by
        rw [List.drop_eq_nil_iff]
        omega
      rw [hmore, if_neg (by simp), hdrop]
      simp [hnil, msgCount]

/-- C1: with a finite complete run of pages, no safety limit hit and no
failing upstream call, getPaginatedCount returns the sum of the item counts of
all pages, i.e. the actual cardinality at call time. -/
theorem C1_fullCount_is_sum_of_pages (pages : List Page) (timedOut : Nat → Bool)
    (hc : completeRun pages) (ht : ∀ i, timedOut i = false)
    (hlen : pages.length ≤ 100) :
    getPaginatedCount (fetchOfPages pages) timedOut = (pages.map Page.count).sum := by
  cases pages with
  | nil =>
    rw [getPaginatedCount, getPaginatedCountRun,
      pagedRun_step_err (fetchOfPages []) timedOut 99 0 0 0 (ht 0) rfl]
    simp
  | cons p rest =>
    rw [getPaginatedCount, getPaginatedCountRun,
      pagedRun_completeRun (p :: rest) timedOut hc ht 100 0 0 0 (by simp) (by omega)]
    simp

/-- C1 witness: three pages of 1000, 1000 and 237 items with no sentinel token
give a full count of 2237. -/
theorem C1_fullCount_witness :
    getPaginatedCount
      (fetchOfPages [⟨1000, some "a"⟩, ⟨1000, some "b"⟩, ⟨237, none⟩])
      (fun _ => false) = 2237 := by
  have hc : completeRun [⟨1000, some "a"⟩, ⟨1000, some "b"⟩, ⟨237, none⟩] := by
    constructor
    · intro i p hi hp
      have hi2 : i < 2 := by
        simp at hi
        omega
      interval_cases i <;> (simp at hp; subst hp; exact ⟨rfl, by decide⟩)
    · intro p hp
      simp at hp
      subst hp
      exact Or.inl rfl
  have h := C1_fullCount_is_sum_of_pages
    [⟨1000, some "a"⟩, ⟨1000, some "b"⟩, ⟨237, none⟩] (fun _ => false)
    hc (fun _ => rfl) (by simp)
  simpa using h

/-- getFastCount against a fixed upstream of n edges served 500 at a time
returns the size of the first page: min 500 n. -/
theorem fastCount_steady (n : Nat) : getFastCount (steadyFetch n 500) = min 500 n := by
  have hf : steadyFetch n 500 0 = .ok (steadyPage n 500 0) := by
    simp [steadyFetch]
  have hmore : hasMoreAfter (steadyPage n 500 0) = false :=
    hasMoreAfter_short _ (by omega)
  rw [getFastCount, getFastCountRun,
    fastRun_step_ok (steadyFetch n 500) 0 0 0 0 _ hf, hmore, if_neg (by simp)]
  simp [msgCount, steadyPage]

/-- getPaginatedCount against a fixed upstream never returns less than the
first page when the deadline has not fired before it. -/
theorem paginated_steady_ge_first (n : Nat) (timedOut : Nat → Bool)
    (h0 : timedOut 0 = false) :
    min 1000 n ≤ getPaginatedCount (steadyFetch n 1000) timedOut := by
  have hf : steadyFetch n 1000 0 = .ok (steadyPage n 1000 0) := by
    simp [steadyFetch]
  rw [getPaginatedCount, getPaginatedCountRun,
    pagedRun_step_ok (steadyFetch n 1000) timedOut 99 0 0 0 _ h0 hf]
  by_cases hm : hasMoreAfter (steadyPage n 1000 0)
  · rw [if_pos hm]
    refine Nat.le_trans ?_ (pagedRun_fst_ge _ _ 99 1 _ 1)
    simp [msgCount, steadyPage]
  · rw [if_neg hm]
    simp [msgCount, steadyPage]

/-- getPaginatedCount against a fixed upstream of fewer than 1000 edges
returns exactly that cardinality: the single page is short, so the loop stops
after it. -/
theorem paginated_steady_small (n : Nat) (timedOut : Nat → Bool)
    (h0 : timedOut 0 = false) (hn : n < 1000) :
    getPaginatedCount (steadyFetch n 1000) timedOut = n := by
  have hf : steadyFetch n 1000 0 = .ok (steadyPage n 1000 0) := by
    simp [steadyFetch]
  have hmore : hasMoreAfter (steadyPage n 1000 0) = false :=
    hasMoreAfter_short _ (by simp [steadyPage]; omega)
  rw [getPaginatedCount, getPaginatedCountRun,
    pagedRun_step_ok (steadyFetch n 1000) timedOut 99 0 0 0 _ h0 hf, hmore,
    if_neg (by simp)]
  simp [msgCount, steadyPage]
  omega

/-- C2: against the same fixed upstream state of n edges, the fast strategy
never exceeds the full strategy, and when the cardinality is within the fast
cap of 500 both strategies return exactly the cardinality. -/
theorem C2_fast_le_full (n : Nat) (timedOut : Nat → Bool) (h0 : timedOut 0 = false) :
    getFastCount (steadyFetch n 500) ≤ getPaginatedCount (steadyFetch n 1000) timedOut ∧
    (n ≤ 500 →
      getFastCount (steadyFetch n 500) = n ∧
      getPaginatedCount (steadyFetch n 1000) timedOut = n) := by
  constructor
  · calc getFastCount (steadyFetch n 500) = min 500 n := fastCount_steady n
    _ ≤ min 1000 n := by omega
    _ ≤ getPaginatedCount (steadyFetch n 1000) timedOut :=
        paginated_steady_ge_first n timedOut h0
  · intro hn
    refine ⟨?_, paginated_steady_small n timedOut h0 (by omega)⟩
    rw [fastCount_steady]
    omega

/-- C2 witness: at cardinality 300 the fast count is below the full count and
both equal 300. -/
theorem C2_fast_le_full_witness :
    getFastCount (steadyFetch 300 500) ≤
      getPaginatedCount (steadyFetch 300 1000) (fun _ => false) ∧
    (300 ≤ 500 →
      getFastCount (steadyFetch 300 500) = 300 ∧
      getPaginatedCount (steadyFetch 300 1000) (fun _ => false) = 300) :=
  C2_fast_le_full 300 (fun _ => false) rfl


/-- One element of the messages array of a links page, with the fields the
backfill loops read: data.fid, data.linkBody.type and data.linkBody.targetFid
(none models an absent field; 0 is a falsy fid). -/
structure LinkMsg where
  dataFid : Option Nat
  linkType : Option String
  targetFid : Option Nat
  deriving Repr, DecidableEq

/-- A links page as consumed by the backfill loops: messages is the optional
messages array (the code reads data.messages || []) and nextPageToken the
optional continuation token (read as data.nextPageToken || ""). -/
structure LinksResp where
  messages : Option (List LinkMsg)
  nextPageToken : Option String
  deriving Repr, DecidableEq

/-- The token string the backfill loops track: data.nextPageToken || "". -/
def pageTokenStr (r : LinksResp) : String := r.nextPageToken.getD ""

/-- The follower id one message contributes in getAllFollowers: pushed when
message.data.linkBody.type === "follow" and message.data.fid is truthy. -/
def followerOf (m : LinkMsg) : Option Nat :=
  match m.linkType, m.dataFid with
  | some "follow", some k => if k = 0 then none else some k
  | _, _ => none

/-- The followed id one message contributes in getAllFollowing: pushed when
message.data.linkBody.type === "follow" and message.data.linkBody.targetFid
is truthy. -/
def followingOf (m : LinkMsg) : Option Nat :=
  match m.linkType, m.targetFid with
  | some "follow", some k => if k = 0 then none else some k
  | _, _ => none

/-- End-of-stream sentinel test of the usernameCache worker variant: the
token equals "[null,null]" or its fixed base64 encoding "W251bGwsbnVsbF0=". -/
def isEndToken (s : String) : Bool :=
  s = "[null,null]" || s = "W251bGwsbnVsbF0="

/-- The pagination loop of getAllFollowers/getAllFollowing in
src/jobs/followersBackfill.worker.ts: hasMore = pageToken.length > 0, with no
sentinel test and no short-page rule.  The list holds the outcomes of the
successive upstream calls (a non-ok HTTP status and a thrown error both break
the loop and are both modelled by error; a call past the end of the list is a
failing call).  Returns the collected ids and the number of calls issued. -/
def linksLoopJobs (extract : LinkMsg → Option Nat) :
    List (Except Unit LinksResp) → List Nat → Nat → List Nat × Nat
  | [], acc, calls => (acc, calls + 1)
  | .error _ :: _, acc, calls => (acc, calls + 1)
  | .ok r :: rest, acc, calls =>
    let acc' := acc ++ (r.messages.getD []).filterMap extract
    if 0 < (pageTokenStr r).length then linksLoopJobs extract rest acc' (calls + 1)
    else (acc', calls + 1)

/-- getAllFollowers of src/jobs/followersBackfill.worker.ts (lines 38-79). -/
def getAllFollowersJobs (rs : List (Except Unit LinksResp)) : List Nat × Nat :=
  linksLoopJobs followerOf rs [] 0

/-- getAllFollowing of src/jobs/followersBackfill.worker.ts (lines 81-122). -/
def getAllFollowingJobs (rs : List (Except Unit LinksResp)) : List Nat × Nat :=
  linksLoopJobs followingOf rs [] 0

/-- The pagination loop of getAllFollowers/getAllFollowing in the backfill
worker variant of src/services/usernameCache.ts: hasMore =
pageToken.length > 0 && !isEndToken, i.e. the jobs loop plus the sentinel
special case, still with no short-page rule. -/
def linksLoopUC (extract : LinkMsg → Option Nat) :
    List (Except Unit LinksResp) → List Nat → Nat → List Nat × Nat
  | [], acc, calls => (acc, calls + 1)
  | .error _ :: _, acc, calls => (acc, calls + 1)
  | .ok r :: rest, acc, calls =>
    let acc' := acc ++ (r.messages.getD []).filterMap extract
    if 0 < (pageTokenStr r).length ∧ isEndToken (pageTokenStr r) = false then
      linksLoopUC extract rest acc' (calls + 1)
    else (acc', calls + 1)

/-- getAllFollowers of the usernameCache worker variant (lines 65-113). -/
def getAllFollowersUC (rs : List (Except Unit LinksResp)) : List Nat × Nat :=
  linksLoopUC followerOf rs [] 0

/-- getAllFollowing of the usernameCache worker variant (lines 115-163). -/
def getAllFollowingUC (rs : List (Except Unit LinksResp)) : List Nat × Nat :=
  linksLoopUC followingOf rs [] 0

/-- Unfolding the jobs loop on a successful page. -/
theorem linksLoopJobs_cons_ok (extract : LinkMsg → Option Nat) (r : LinksResp)
    (rest : List (Except Unit LinksResp)) (acc : List Nat) (calls : Nat) :
    linksLoopJobs extract (.ok r :: rest) acc calls =
      (if 0 < (pageTokenStr r).length then
        linksLoopJobs extract rest (acc ++ (r.messages.getD []).filterMap extract)
          (calls + 1)
       else (acc ++ (r.messages.getD []).filterMap extract, calls + 1)) := rfl

/-- Unfolding the usernameCache loop on a successful page. -/
theorem linksLoopUC_cons_ok (extract : LinkMsg → Option Nat) (r : LinksResp)
    (rest : List (Except Unit LinksResp)) (acc : List Nat) (calls : Nat) :
    linksLoopUC extract (.ok r :: rest) acc calls =
      (if 0 < (pageTokenStr r).length ∧ isEndToken (pageTokenStr r) = false then
        linksLoopUC extract rest (acc ++ (r.messages.getD []).filterMap extract)
          (calls + 1)
       else (acc ++ (r.messages.getD []).filterMap extract, calls + 1)) := rfl

/-- Every invocation of the jobs loop issues at least one upstream call. -/
theorem linksLoopJobs_calls_ge (extract : LinkMsg → Option Nat) :
    ∀ rs acc calls, calls + 1 ≤ (linksLoopJobs extract rs acc calls).2 := by
  intro rs
  induction rs with
  | nil => intro acc calls; exact Nat.le_refl _
  | cons hd rest ih =>
    intro acc calls
    cases hd with
    | error e => exact Nat.le_refl _
    | ok r =>
      rw [linksLoopJobs_cons_ok]
      by_cases hlen : 0 < (pageTokenStr r).length
      · rw [if_pos hlen]
        exact Nat.le_trans (Nat.le_succ _) (ih _ (calls + 1))
      · rw [if_neg hlen]

/-- Every invocation of the usernameCache loop issues at least one call. -/
theorem linksLoopUC_calls_ge (extract : LinkMsg → Option Nat) :
    ∀ rs acc calls, calls + 1 ≤ (linksLoopUC extract rs acc calls).2 := by
  intro rs
  induction rs with
  | nil => intro acc calls; exact Nat.le_refl _
  | cons hd rest ih =>
    intro acc calls
    cases hd with
    | error e => exact Nat.le_refl _
    | ok r =>
      rw [linksLoopUC_cons_ok]
      by_cases hcond : 0 < (pageTokenStr r).length ∧ isEndToken (pageTokenStr r) = false
      · rw [if_pos hcond]
        exact Nat.le_trans (Nat.le_succ _) (ih _ (calls + 1))
      · rw [if_neg hcond]

/-- An upstream that answers the first call with a full page carrying the raw
end-of-stream sentinel as its token, and empty pages afterwards. -/
def sentinelFetch : Nat → FetchOutcome := fun i =>
  match i with
  | 0 => .ok ⟨some 1000, some "[null,null]"⟩
  | _ => .ok ⟨some 0, none⟩

/-- C3 counterexample: getPaginatedCount receives a full page whose token is
the raw sentinel "[null,null]" and issues a second upstream call, so it is
not the case that every iterator implementation treats the sentinel as no
more data. -/
theorem C3_counterexample :
    (getPaginatedCountRun sentinelFetch (fun _ => false)).2 = 2 := by decide

/-- C3 (amended): only the usernameCache backfill loops special-case the
sentinel token, reporting no more data and issuing no further upstream call;
the jobs backfill loops treat the sentinel as an ordinary non-empty token and
keep paging. -/
theorem C3_sentinel_amended (r : LinksResp) (rest : List (Except Unit LinksResp))
    (h : isEndToken (pageTokenStr r) = true) :
    (getAllFollowersUC (.ok r :: rest)).2 = 1 ∧
    (getAllFollowingUC (.ok r :: rest)).2 = 1 ∧
    2 ≤ (getAllFollowersJobs (.ok r :: rest)).2 ∧
    2 ≤ (getAllFollowingJobs (.ok r :: rest)).2 := by
  have hs : 0 < (pageTokenStr r).length := by
    have h2 : pageTokenStr r = "[null,null]" ∨ pageTokenStr r = "W251bGwsbnVsbF0=" := by
      simpa [isEndToken] using h
    rcases h2 with h2 | h2 <;> rw [h2] <;> decide
  have hnot : ¬ (0 < (pageTokenStr r).length ∧ isEndToken (pageTokenStr r) = false) := by
    intro hcond
    rw [h] at hcond
    simp at hcond
  refine ⟨?_, ?_, ?_, ?_⟩
  · rw [getAllFollowersUC, linksLoopUC_cons_ok, if_neg hnot]
  · rw [getAllFollowingUC, linksLoopUC_cons_ok, if_neg hnot]
  · rw [getAllFollowersJobs, linksLoopJobs_cons_ok, if_pos hs]
    exact linksLoopJobs_calls_ge followerOf rest _ 1
  · rw [getAllFollowingJobs, linksLoopJobs_cons_ok, if_pos hs]
    exact linksLoopJobs_calls_ge followingOf rest _ 1

/-- C3 witness: a page carrying the raw sentinel stops the usernameCache
loops after one call while the jobs loops call again. -/
theorem C3_sentinel_witness :
    (getAllFollowersUC [.ok ⟨some [], some "[null,null]"⟩]).2 = 1 ∧
    (getAllFollowingUC [.ok ⟨some [], some "[null,null]"⟩]).2 = 1 ∧
    2 ≤ (getAllFollowersJobs [.ok ⟨some [], some "[null,null]"⟩]).2 ∧
    2 ≤ (getAllFollowingJobs [.ok ⟨some [], some "[null,null]"⟩]).2 :=
  C3_sentinel_amended ⟨some [], some "[null,null]"⟩ [] (by decide)

/-- C4 counterexample: the usernameCache getAllFollowers loop receives a page
with one message, far below the requested page size of 10000, together with a
non-empty non-sentinel token, and issues a second upstream call, so it is not
the case that every iterator implementation stops after a short page. -/
theorem C4_counterexample :
    (getAllFollowersUC [.ok ⟨some [⟨some 5, some "follow", some 9⟩], some "abc"⟩,
      .ok ⟨some [], none⟩]).2 = 2 := by decide

/-- C4 (amended): getPaginatedCount stops after any page with fewer than 1000
items and issues no further call regardless of the token, but the backfill
pagination loops have no short-page rule: whatever the page size, they keep
calling whenever their token check passes. -/
theorem C4_short_page_amended :
    (∀ (fetch : Nat → FetchOutcome) (timedOut : Nat → Bool) (mt : Option String) (k : Nat),
      timedOut 0 = false → fetch 0 = .ok ⟨some k, mt⟩ → k < 1000 →
      (getPaginatedCountRun fetch timedOut).2 = 1) ∧
    (∀ (r : LinksResp) (rest : List (Except Unit LinksResp)),
      0 < (pageTokenStr r).length → isEndToken (pageTokenStr r) = false →
      2 ≤ (getAllFollowersUC (.ok r :: rest)).2) ∧
    (∀ (r : LinksResp) (rest : List (Except Unit LinksResp)),
      0 < (pageTokenStr r).length →
      2 ≤ (getAllFollowersJobs (.ok r :: rest)).2) := by
  refine ⟨?_, ?_, ?_⟩
  · intro fetch timedOut mt k ht0 hf hk
    rw [getPaginatedCountRun,
      pagedRun_step_ok fetch timedOut 99 0 0 0 _ ht0 hf,
      hasMoreAfter_short mt hk, if_neg (by simp)]
  · intro r rest hs hend
    rw [getAllFollowersUC, linksLoopUC_cons_ok, if_pos ⟨hs, hend⟩]
    exact linksLoopUC_calls_ge followerOf rest _ 1
  · intro r rest hs
    rw [getAllFollowersJobs, linksLoopJobs_cons_ok, if_pos hs]
    exact linksLoopJobs_calls_ge followerOf rest _ 1

/-- C4 witness: a short page stops getPaginatedCount after one call, while a
short page with a non-empty token keeps both backfill loops calling. -/
theorem C4_short_page_witness :
    (getPaginatedCountRun (fun _ => .ok ⟨some 237, some "t"⟩) (fun _ => false)).2 = 1 ∧
    2 ≤ (getAllFollowersUC [.ok ⟨some [], some "abc"⟩]).2 ∧
    2 ≤ (getAllFollowersJobs [.ok ⟨some [], some "abc"⟩]).2 :=
  ⟨C4_short_page_amended.1 (fun _ => .ok ⟨some 237, some "t"⟩) (fun _ => false)
      (some "t") 237 rfl rfl (by decide),
   C4_short_page_amended.2.1 ⟨some [], some "abc"⟩ [] (by decide) (by decide),
   C4_short_page_amended.2.2 ⟨some [], some "abc"⟩ [] (by decide)⟩

/-- A graph-cache key.  The source writes the string keys FOLLOW_COUNT:fid,
FOLLOWERS:fid and FOLLOWING:fid; since interpolating a fixed prefix with a
decimal fid is injective, a key is embedded as the pair of its prefix and its
fid. -/
abbrev CacheKey := String × Nat

/-- The key-value store backing the graph cache, newest write first. -/
abbrev Store := List (CacheKey × String)

/-- redis.set: a single-key overwrite (the TTL option does not change the
stored bytes and is not modelled). -/
def redisSet (st : Store) (k : CacheKey) (v : String) : Store := (k, v) :: st

/-- redis.get: the most recent value written under the key. -/
def redisGet : Store → CacheKey → Option String
  | [], _ => none
  | e :: rest, k => if e.1 = k then some e.2 else redisGet rest k

/-- Reading a key just written returns the written value. -/
theorem redisGet_set_same (st : Store) (k : CacheKey) (v : String) :
    redisGet (redisSet st k v) k = some v := by
  simp [redisSet, redisGet]

/-- Writing one key leaves every other key unchanged. -/
theorem redisGet_set_other (st : Store) (k k' : CacheKey) (v : String)
    (h : k ≠ k') :
    redisGet (redisSet st k v) k' = redisGet st k' := by
  show (if k = k' then some v else redisGet st k') = redisGet st k'
  rw [if_neg h]

/-- JSON.stringify of a number list, as produced for the FOLLOWERS and
FOLLOWING values: no whitespace, decimal integers. -/
def jsonNatList (l : List Nat) : String :=
  "[" ++ String.intercalate "," (l.map toString) ++ "]"

/-- JSON.stringify of the FollowerData record written under FOLLOW_COUNT, with
the field order of the object literal: fid, followerCount, followingCount,
lastUpdated. -/
def jsonFollowerData (fid followerCount followingCount lastUpdated : Nat) : String :=
  "\x7b\"fid\":" ++ toString fid ++
  ",\"followerCount\":" ++ toString followerCount ++
  ",\"followingCount\":" ++ toString followingCount ++
  ",\"lastUpdated\":" ++ toString lastUpdated ++ "\x7d"

/-- The write sequence of cacheFollowerData (both worker variants write the
same three key-value pairs in the same order; the jobs variant adds a TTL,
which does not change the bytes).  now is the Date.now() reading, followers
and following the lists the two pagination loops returned, and w1 w2 w3
whether each of the three sequential awaited redis.set calls succeeds: a
failing call writes nothing, later calls are not reached, and the error is
rethrown after the earlier writes have already taken effect.  Returns the
final store and whether the call resolved. -/
def cacheFollowerWrites (fid now : Nat) (followers following : List Nat)
    (w1 w2 w3 : Bool) (st : Store) : Store × Bool :=
  if w1 then
    let st1 := redisSet st ("FOLLOW_COUNT", fid)
      (jsonFollowerData fid followers.length following.length now)
    if w2 then
      let st2 := redisSet st1 ("FOLLOWERS", fid) (jsonNatList followers)
      if w3 then (redisSet st2 ("FOLLOWING", fid) (jsonNatList following), true)
      else (st2, false)
    else (st1, false)
  else (st, false)

/-- cacheFollowerData (src/jobs/followersBackfill.worker.ts lines 124-154 and
src/services/usernameCache.ts lines 165-195): the two pagination loops run on
their upstream outcome sequences (they never throw), then the three snapshot
keys are written in order. -/
def cacheFollowerData (fid now : Nat)
    (followerRs followingRs : List (Except Unit LinksResp))
    (w1 w2 w3 : Bool) (st : Store) : Store × Bool :=
  cacheFollowerWrites fid now (getAllFollowersJobs followerRs).1
    (getAllFollowingJobs followingRs).1 w1 w2 w3 st

/-- The call resolves exactly when all three writes succeed. -/
theorem cacheFollowerWrites_snd (fid now : Nat) (fols folg : List Nat)
    (w1 w2 w3 : Bool) (st : Store) :
    (cacheFollowerWrites fid now fols folg w1 w2 w3 st).2 = (w1 && w2 && w3) := by
  cases w1 <;> cases w2 <;> cases w3 <;> rfl

/-- cacheFollowerData only touches the three keys of its own fid. -/
theorem cacheFollowerWrites_frame (fid now : Nat) (fols folg : List Nat)
    (w1 w2 w3 : Bool) (st : Store) (k : CacheKey) (h : k.2 ≠ fid) :
    redisGet (cacheFollowerWrites fid now fols folg w1 w2 w3 st).1 k =
      redisGet st k := by
  have h1 : (("FOLLOW_COUNT", fid) : CacheKey) ≠ k :=
    fun he => h (congrArg Prod.snd he).symm
  have h2 : (("FOLLOWERS", fid) : CacheKey) ≠ k :=
    fun he => h (congrArg Prod.snd he).symm
  have h3 : (("FOLLOWING", fid) : CacheKey) ≠ k :=
    fun he => h (congrArg Prod.snd he).symm
  cases w1 <;> cases w2 <;> cases w3 <;>
    simp [cacheFollowerWrites, redisGet_set_other _ _ _ _ h1,
      redisGet_set_other _ _ _ _ h2, redisGet_set_other _ _ _ _ h3]

/-- After a fully successful cacheFollowerData the three snapshot keys hold
exactly the freshly serialized values. -/
theorem cacheFollowerWrites_gets (fid now : Nat) (fols folg : List Nat) (st : Store) :
    redisGet (cacheFollowerWrites fid now fols folg true true true st).1
      ("FOLLOW_COUNT", fid) =
        some (jsonFollowerData fid fols.length folg.length now) ∧
    redisGet (cacheFollowerWrites fid now fols folg true true true st).1
      ("FOLLOWERS", fid) = some (jsonNatList fols) ∧
    redisGet (cacheFollowerWrites fid now fols folg true true true st).1
      ("FOLLOWING", fid) = some (jsonNatList folg) := by
  have hGC : (("FOLLOWING", fid) : CacheKey) ≠ ("FOLLOW_COUNT", fid) := by
    intro he
    have he2 : ("FOLLOWING" : String) = "FOLLOW_COUNT" := congrArg Prod.fst he
    exact absurd he2 (by decide)
  have hGR : (("FOLLOWING", fid) : CacheKey) ≠ ("FOLLOWERS", fid) := by
    intro he
    have he2 : ("FOLLOWING" : String) = "FOLLOWERS" := congrArg Prod.fst he
    exact absurd he2 (by decide)
  have hRC : (("FOLLOWERS", fid) : CacheKey) ≠ ("FOLLOW_COUNT", fid) := by
    intro he
    have he2 : ("FOLLOWERS" : String) = "FOLLOW_COUNT" := congrArg Prod.fst he
    exact absurd he2 (by decide)
  refine ⟨?_, ?_, ?_⟩
  · show redisGet (redisSet (redisSet (redisSet st ("FOLLOW_COUNT", fid) _)
      ("FOLLOWERS", fid) _) ("FOLLOWING", fid) _) ("FOLLOW_COUNT", fid) = _
    rw [redisGet_set_other _ _ _ _ hGC, redisGet_set_other _ _ _ _ hRC,
      redisGet_set_same]
  · show redisGet (redisSet (redisSet (redisSet st ("FOLLOW_COUNT", fid) _)
      ("FOLLOWERS", fid) _) ("FOLLOWING", fid) _) ("FOLLOWERS", fid) = _
    rw [redisGet_set_other _ _ _ _ hGR, redisGet_set_same]
  · show redisGet (redisSet (redisSet (redisSet st ("FOLLOW_COUNT", fid) _)
      ("FOLLOWERS", fid) _) ("FOLLOWING", fid) _) ("FOLLOWING", fid) = _
    rw [redisGet_set_same]

/-- What one subject id contributes during a batch: the id lists its two
pagination loops return and whether each of its three cache writes
succeeds. -/
structure FidEnv where
  followers : List Nat
  following : List Nat
  w1 : Bool
  w2 : Bool
  w3 : Bool
  deriving Repr, DecidableEq

/-- The cacheFollowerData task of one fid inside a batch, under the batch
environment. -/
def runFidWrites (env : Nat → FidEnv) (now fid : Nat) (st : Store) : Store × Bool :=
  cacheFollowerWrites fid now (env fid).followers (env fid).following
    (env fid).w1 (env fid).w2 (env fid).w3 st

/-- processFidBatch of src/jobs/followersBackfill.worker.ts (lines 156-167):
Promise.all over the per-fid cacheFollowerData tasks, each of which rethrows
its error.  Every task starts before any rejection is observed and distinct
fids write distinct keys, so all per-fid writes take effect under any
interleaving; the fold applies them in batch order.  The Bool is whether the
Promise.all resolves: it rejects as soon as any per-fid task rejects. -/
def processFidBatchJobs (env : Nat → FidEnv) (now : Nat) :
    List Nat → Store → Store × Bool
  | [], st => (st, true)
  | fid :: rest, st =>
    let r := runFidWrites env now fid st
    let rr := processFidBatchJobs env now rest r.1
    (rr.1, r.2 && rr.2)

/-- processFidBatch of the usernameCache worker variant (lines 197-214):
Promise.allSettled over the same tasks with a per-task catch; it always
resolves and reports how many fids succeeded and how many failed. -/
def processFidBatchUC (env : Nat → FidEnv) (now : Nat) :
    List Nat → Store → Store × (Nat × Nat)
  | [], st => (st, (0, 0))
  | fid :: rest, st =>
    let r := runFidWrites env now fid st
    let rr := processFidBatchUC env now rest r.1
    (rr.1, if r.2 then (rr.2.1 + 1, rr.2.2) else (rr.2.1, rr.2.2 + 1))

/-- A batch leaves the keys of fids outside it unchanged. -/
theorem processFidBatchJobs_frame (env : Nat → FidEnv) (now : Nat) :
    ∀ (fids : List Nat) (st : Store) (k : CacheKey), k.2 ∉ fids →
      redisGet (processFidBatchJobs env now fids st).1 k = redisGet st k := by
  intro fids
  induction fids with
  | nil => intro st k h; rfl
  | cons fid rest ih =>
    intro st k h
    have hk1 : k.2 ≠ fid := fun he => h (by rw [he]; exact List.mem_cons_self _ _)
    have hk2 : k.2 ∉ rest := fun hm => h (List.mem_cons_of_mem _ hm)
    show redisGet (processFidBatchJobs env now rest (runFidWrites env now fid st).1).1 k =
      redisGet st k
    rw [ih _ k hk2]
    exact cacheFollowerWrites_frame fid now _ _ _ _ _ st k hk1

/-- The jobs batch rejects as soon as one of its fids fails. -/
theorem processFidBatchJobs_rejects (env : Nat → FidEnv) (now : Nat) :
    ∀ (fids : List Nat) (st : Store) (k : Nat), k ∈ fids →
      ((env k).w1 && (env k).w2 && (env k).w3) = false →
      (processFidBatchJobs env now fids st).2 = false := by
  intro fids
  induction fids with
  | nil => intro st k hk; exact absurd hk (List.not_mem_nil k)
  | cons fid rest ih =>
    intro st k hk hfail
    show ((runFidWrites env now fid st).2 &&
      (processFidBatchJobs env now rest (runFidWrites env now fid st).1).2) = false
    rcases List.mem_cons.mp hk with he | hm
    · subst he
      rw [runFidWrites, cacheFollowerWrites_snd, hfail, Bool.false_and]
    · rw [ih _ k hm hfail, Bool.and_false]

/-- Within a batch, every fid whose three writes succeed ends up with its
three snapshot keys holding the freshly serialized values, whatever happens
to the other fids. -/
theorem processFidBatchJobs_writes (env : Nat → FidEnv) (now : Nat) :
    ∀ (fids : List Nat) (st : Store) (j : Nat), j ∈ fids → fids.Nodup →
      (env j).w1 = true → (env j).w2 = true → (env j).w3 = true →
      redisGet (processFidBatchJobs env now fids st).1 ("FOLLOW_COUNT", j) =
        some (jsonFollowerData j (env j).followers.length (env j).following.length now) ∧
      redisGet (processFidBatchJobs env now fids st).1 ("FOLLOWERS", j) =
        some (jsonNatList (env j).followers) ∧
      redisGet (processFidBatchJobs env now fids st).1 ("FOLLOWING", j) =
        some (jsonNatList (env j).following) := by
  intro fids
  induction fids with
  | nil => intro st j hj; exact absurd hj (List.not_mem_nil j)
  | cons fid rest ih =>
    intro st j hj hnd hw1 hw2 hw3
    have hnd2 := List.nodup_cons.mp hnd
    rcases List.mem_cons.mp hj with he | hm
    · subst he
      have hframe : ∀ k : CacheKey, k.2 ∉ rest →
          redisGet (processFidBatchJobs env now rest (runFidWrites env now j st).1).1 k =
            redisGet (runFidWrites env now j st).1 k :=
        fun k hk => processFidBatchJobs_frame env now rest _ k hk
      have hr : runFidWrites env now j st =
          cacheFollowerWrites j now (env j).followers (env j).following true true true st := by
        rw [runFidWrites, hw1, hw2, hw3]
      refine ⟨?_, ?_, ?_⟩
      · show redisGet (processFidBatchJobs env now rest (runFidWrites env now j st).1).1
          ("FOLLOW_COUNT", j) = _
        rw [hframe ("FOLLOW_COUNT", j) hnd2.1, hr]
        exact (cacheFollowerWrites_gets j now _ _ st).1
      · show redisGet (processFidBatchJobs env now rest (runFidWrites env now j st).1).1
          ("FOLLOWERS", j) = _
        rw [hframe ("FOLLOWERS", j) hnd2.1, hr]
        exact (cacheFollowerWrites_gets j now _ _ st).2.1
      · show redisGet (processFidBatchJobs env now rest (runFidWrites env now j st).1).1
          ("FOLLOWING", j) = _
        rw [hframe ("FOLLOWING", j) hnd2.1, hr]
        exact (cacheFollowerWrites_gets j now _ _ st).2.2
    · exact ih _ j hm hnd2.2 hw1 hw2 hw3

/-- Both batch variants leave the store in the same final state. -/
theorem processFidBatch_store_eq (env : Nat → FidEnv) (now : Nat) :
    ∀ (fids : List Nat) (st : Store),
      (processFidBatchUC env now fids st).1 = (processFidBatchJobs env now fids st).1 := by
  intro fids
  induction fids with
  | nil => intro st; rfl
  | cons fid rest ih =>
    intro st
    show (processFidBatchUC env now rest (runFidWrites env now fid st).1).1 =
      (processFidBatchJobs env now rest (runFidWrites env now fid st).1).1
    exact ih _

/-- The allSettled batch reports all fids successful when all writes
succeed. -/
theorem processFidBatchUC_all_success (env : Nat → FidEnv) (now : Nat) :
    ∀ (fids : List Nat) (st : Store),
      (∀ j ∈ fids, ((env j).w1 && (env j).w2 && (env j).w3) = true) →
      (processFidBatchUC env now fids st).2 = (fids.length, 0) := by
  intro fids
  induction fids with
  | nil => intro st hok; rfl
  | cons fid rest ih =>
    intro st hok
    have hr : (runFidWrites env now fid st).2 = true := by
      rw [runFidWrites, cacheFollowerWrites_snd]
      exact hok fid (List.mem_cons_self _ _)
    show (if (runFidWrites env now fid st).2 then _ else _) = _
    rw [if_pos hr, ih _ (fun j hj => hok j (List.mem_cons_of_mem _ hj))]
    simp

/-- The allSettled batch with exactly one failing fid reports one failure and
all the other fids as successes. -/
theorem processFidBatchUC_one_failure (env : Nat → FidEnv) (now : Nat) :
    ∀ (fids : List Nat) (st : Store) (k : Nat), k ∈ fids → fids.Nodup →
      ((env k).w1 && (env k).w2 && (env k).w3) = false →
      (∀ j ∈ fids, j ≠ k → ((env j).w1 && (env j).w2 && (env j).w3) = true) →
      (processFidBatchUC env now fids st).2 = (fids.length - 1, 1) := by
  intro fids
  induction fids with
  | nil => intro st k hk; exact absurd hk (List.not_mem_nil k)
  | cons fid rest ih =>
    intro st k hk hnd hfail hok
    have hnd2 := List.nodup_cons.mp hnd
    rcases List.mem_cons.mp hk with he | hm
    · subst he
      have hr : (runFidWrites env now k st).2 = false := by
        rw [runFidWrites, cacheFollowerWrites_snd, hfail]
      show (if (runFidWrites env now k st).2 then _ else _) = _
      rw [if_neg (by rw [hr]; exact Bool.false_ne_true),
        processFidBatchUC_all_success env now rest _
          (fun j hj => hok j (List.mem_cons_of_mem _ hj)
            (fun hjk => hnd2.1 (hjk ▸ hj)))]
      simp
    · have hfid : fid ≠ k := fun he => hnd2.1 (he ▸ hm)
      have hr : (runFidWrites env now fid st).2 = true := by
        rw [runFidWrites, cacheFollowerWrites_snd]
        exact hok fid (List.mem_cons_self _ _) hfid
      have hlen : 0 < rest.length := List.length_pos.mpr (List.ne_nil_of_mem hm)
      show (if (runFidWrites env now fid st).2 then _ else _) = _
      rw [if_pos hr, ih _ k hm hnd2.2 hfail
        (fun j hj hjk => hok j (List.mem_cons_of_mem _ hj) hjk)]
      simp
      omega

/-- A two-fid batch environment in which fid 1's first cache write fails and
every other fid succeeds with one follower and one followed id. -/
def c6env : Nat → FidEnv := fun fid =>
  if fid = 1 then ⟨[], [], false, true, true⟩ else ⟨[7], [8], true, true, true⟩

/-- C6 counterexample: in the jobs worker's processFidBatch, a batch of two
fids in which fid 1 fails still writes fid 2's snapshot, but the handler
rejects the batch (Promise.all over rethrowing tasks) instead of collecting
per-id successes and failures, so the allSettled-equivalent part of the claim
fails at the cited jobs call site. -/
theorem C6_counterexample :
    (processFidBatchJobs c6env 100 [1, 2] []).2 = false ∧
    redisGet (processFidBatchJobs c6env 100 [1, 2] []).1 ("FOLLOW_COUNT", 2) =
      some (jsonFollowerData 2 1 1 100) := by decide

/-- C6 (amended): a per-id failure inside a batch still leaves every other
id's snapshot written in both worker variants, which produce the same final
store; the usernameCache variant's handler resolves and reports B-1 successes
and 1 failure, while the jobs variant's handler rejects the batch. -/
theorem C6_failure_isolation_amended (env : Nat → FidEnv) (now : Nat)
    (fids : List Nat) (st : Store) (k : Nat)
    (hk : k ∈ fids) (hnd : fids.Nodup)
    (hfail : ((env k).w1 && (env k).w2 && (env k).w3) = false)
    (hok : ∀ j ∈ fids, j ≠ k →
      (env j).w1 = true ∧ (env j).w2 = true ∧ (env j).w3 = true) :
    (∀ j ∈ fids, j ≠ k →
      redisGet (processFidBatchJobs env now fids st).1 ("FOLLOW_COUNT", j) =
        some (jsonFollowerData j (env j).followers.length (env j).following.length now) ∧
      redisGet (processFidBatchJobs env now fids st).1 ("FOLLOWERS", j) =
        some (jsonNatList (env j).followers) ∧
      redisGet (processFidBatchJobs env now fids st).1 ("FOLLOWING", j) =
        some (jsonNatList (env j).following)) ∧
    (processFidBatchUC env now fids st).1 = (processFidBatchJobs env now fids st).1 ∧
    (processFidBatchJobs env now fids st).2 = false ∧
    (processFidBatchUC env now fids st).2 = (fids.length - 1, 1) := by
  refine ⟨?_, processFidBatch_store_eq env now fids st,
    processFidBatchJobs_rejects env now fids st k hk hfail,
    processFidBatchUC_one_failure env now fids st k hk hnd hfail
      (fun j hj hjk => by
        obtain ⟨h1, h2, h3⟩ := hok j hj hjk
        rw [h1, h2, h3]
        rfl)⟩
  intro j hj hjk
  obtain ⟨h1, h2, h3⟩ := hok j hj hjk
  exact processFidBatchJobs_writes env now fids st j hj hnd h1 h2 h3

/-- C6 witness: in the concrete two-fid batch in which fid 1 fails, fid 2's
snapshot is written, the jobs handler rejects, and the allSettled handler
reports one success and one failure. -/
theorem C6_failure_isolation_witness :
    redisGet (processFidBatchJobs c6env 100 [1, 2] []).1 ("FOLLOW_COUNT", 2) =
      some (jsonFollowerData 2 1 1 100) ∧
    (processFidBatchJobs c6env 100 [1, 2] []).2 = false ∧
    (processFidBatchUC c6env 100 [1, 2] []).2 = (1, 1) := by
  have h := C6_failure_isolation_amended c6env 100 [1, 2] [] 1 (by decide)
    (by decide) (by decide) (by decide)
  refine ⟨(h.1 2 (by decide) (by decide)).1, h.2.2.1, ?_⟩
  rw [h.2.2.2]
  rfl

/-- A one-page upstream outcome used as the unchanged upstream of the C7
idempotence runs: one follow link from fid 3 to fid 4 and no token. -/
def c7rs : List (Except Unit LinksResp) :=
  [.ok ⟨some [⟨some 3, some "follow", some 4⟩], none⟩]

/-- C7 counterexample: running the backfill write for subject 1 twice against
the unchanged upstream c7rs, once at Date.now() = 100 and once at 200, stores
different FOLLOW_COUNT bytes, because the serialized record embeds the
lastUpdated timestamp. -/
theorem C7_counterexample :
    redisGet (cacheFollowerData 1 100 c7rs c7rs true true true []).1
      ("FOLLOW_COUNT", 1) ≠
    redisGet (cacheFollowerData 1 200 c7rs c7rs true true true
      (cacheFollowerData 1 100 c7rs c7rs true true true []).1).1
      ("FOLLOW_COUNT", 1) := by decide

/-- C7 (amended): two backfill runs against the same upstream outcomes write
byte-identical FOLLOWERS and FOLLOWING values, and FOLLOW_COUNT records that
agree on fid and both counts and differ only in the embedded lastUpdated
field; the FOLLOW_COUNT bytes coincide exactly when the two runs read the
same clock value. -/
theorem C7_idempotence_amended (fid t1 t2 : Nat)
    (followerRs followingRs : List (Except Unit LinksResp)) (stA stB : Store) :
    redisGet (cacheFollowerData fid t1 followerRs followingRs true true true stA).1
      ("FOLLOWERS", fid) =
      redisGet (cacheFollowerData fid t2 followerRs followingRs true true true stB).1
      ("FOLLOWERS", fid) ∧
    redisGet (cacheFollowerData fid t1 followerRs followingRs true true true stA).1
      ("FOLLOWING", fid) =
      redisGet (cacheFollowerData fid t2 followerRs followingRs true true true stB).1
      ("FOLLOWING", fid) ∧
    redisGet (cacheFollowerData fid t1 followerRs followingRs true true true stA).1
      ("FOLLOW_COUNT", fid) =
      some (jsonFollowerData fid (getAllFollowersJobs followerRs).1.length
        (getAllFollowingJobs followingRs).1.length t1) ∧
    redisGet (cacheFollowerData fid t2 followerRs followingRs true true true stB).1
      ("FOLLOW_COUNT", fid) =
      some (jsonFollowerData fid (getAllFollowersJobs followerRs).1.length
        (getAllFollowingJobs followingRs).1.length t2) ∧
    (t1 = t2 →
      redisGet (cacheFollowerData fid t1 followerRs followingRs true true true stA).1
        ("FOLLOW_COUNT", fid) =
        redisGet (cacheFollowerData fid t2 followerRs followingRs true true true stB).1
        ("FOLLOW_COUNT", fid)) := by
  have g1 := cacheFollowerWrites_gets fid t1 (getAllFollowersJobs followerRs).1
    (getAllFollowingJobs followingRs).1 stA
  have g2 := cacheFollowerWrites_gets fid t2 (getAllFollowersJobs followerRs).1
    (getAllFollowingJobs followingRs).1 stB
  refine ⟨g1.2.1.trans g2.2.1.symm, g1.2.2.trans g2.2.2.symm, g1.1, g2.1, ?_⟩
  intro ht
  subst ht
  exact g1.1.trans g2.1.symm

/-- C7 witness: two successive runs for subject 1 over the unchanged upstream
c7rs at the same clock value write identical FOLLOWERS and FOLLOW_COUNT
values. -/
theorem C7_idempotence_witness :
    redisGet (cacheFollowerData 1 100 c7rs c7rs true true true []).1
      ("FOLLOWERS", 1) =
      redisGet (cacheFollowerData 1 100 c7rs c7rs true true true
        (cacheFollowerData 1 100 c7rs c7rs true true true []).1).1
      ("FOLLOWERS", 1) ∧
    redisGet (cacheFollowerData 1 100 c7rs c7rs true true true []).1
      ("FOLLOW_COUNT", 1) =
      redisGet (cacheFollowerData 1 100 c7rs c7rs true true true
        (cacheFollowerData 1 100 c7rs c7rs true true true []).1).1
      ("FOLLOW_COUNT", 1) := by
  have h := C7_idempotence_amended 1 100 100 c7rs c7rs []
    (cacheFollowerData 1 100 c7rs c7rs true true true []).1
  exact ⟨h.1, h.2.2.2.2 rfl⟩

/-- C8 counterexample: subject 1's snapshot is first written successfully with
5 followers at time 100; a later run with 2 followers at time 200 whose second
redis.set fails leaves the store holding the fresh FOLLOW_COUNT next to the
stale FOLLOWERS list — also exactly the store a concurrent reader observes
between the first and second write of a successful run — so the snapshot is
not replaced atomically and a write failing midway does not leave the prior
snapshot intact. -/
theorem C8_counterexample :
    (cacheFollowerWrites 1 200 [1, 2] [9] true false true
      (cacheFollowerWrites 1 100 [1, 2, 3, 4, 5] [9] true true true []).1).2 = false ∧
    redisGet (cacheFollowerWrites 1 200 [1, 2] [9] true false true
      (cacheFollowerWrites 1 100 [1, 2, 3, 4, 5] [9] true true true []).1).1
      ("FOLLOW_COUNT", 1) = some (jsonFollowerData 1 2 1 200) ∧
    redisGet (cacheFollowerWrites 1 200 [1, 2] [9] true false true
      (cacheFollowerWrites 1 100 [1, 2, 3, 4, 5] [9] true true true []).1).1
      ("FOLLOWERS", 1) = some (jsonNatList [1, 2, 3, 4, 5]) := by decide

/-- C8 (amended): a snapshot is written by three separate sequential
single-key overwrites, not atomically: each individual key write is atomic,
and a fully successful run installs exactly the three fresh values while
leaving every other key untouched, but after the first of the three writes —
the state a concurrent reader can observe, and the final state when the
second write fails — the store holds the fresh FOLLOW_COUNT alongside the
prior id lists. -/
theorem C8_write_sequence_amended (fid now : Nat)
    (followers following : List Nat) (st : Store) :
    (cacheFollowerWrites fid now followers following true true true st).2 = true ∧
    redisGet (cacheFollowerWrites fid now followers following true true true st).1
      ("FOLLOW_COUNT", fid) =
      some (jsonFollowerData fid followers.length following.length now) ∧
    redisGet (cacheFollowerWrites fid now followers following true true true st).1
      ("FOLLOWERS", fid) = some (jsonNatList followers) ∧
    redisGet (cacheFollowerWrites fid now followers following true true true st).1
      ("FOLLOWING", fid) = some (jsonNatList following) ∧
    (∀ k : CacheKey, k.2 ≠ fid →
      redisGet (cacheFollowerWrites fid now followers following true true true st).1 k =
        redisGet st k) ∧
    (cacheFollowerWrites fid now followers following true false true st).1 =
      redisSet st ("FOLLOW_COUNT", fid)
        (jsonFollowerData fid followers.length following.length now) ∧
    (cacheFollowerWrites fid now followers following true false true st).2 = false := by
  have g := cacheFollowerWrites_gets fid now followers following st
  refine ⟨rfl, g.1, g.2.1, g.2.2, ?_, rfl, rfl⟩
  intro k hk
  exact cacheFollowerWrites_frame fid now followers following true true true st k hk

/-- C8 witness: a concrete successful write resolves, leaves an unrelated key
unchanged, and the failing-midway variant rejects. -/
theorem C8_write_sequence_witness :
    (cacheFollowerWrites 3 500 [4] [5] true true true []).2 = true ∧
    redisGet (cacheFollowerWrites 3 500 [4] [5] true true true []).1
      ("FOLLOW_COUNT", 99) = redisGet ([] : Store) ("FOLLOW_COUNT", 99) ∧
    (cacheFollowerWrites 3 500 [4] [5] true false true []).2 = false := by
  have h := C8_write_sequence_amended 3 500 [4] [5] []
  exact ⟨h.1, h.2.2.2.2.1 ("FOLLOW_COUNT", 99) (by decide), h.2.2.2.2.2.2⟩

/-- One iteration of the getFastCount loop on a failing call. -/
theorem fastRun_step_err (fetch : Nat → FetchOutcome) (fuel i acc calls : Nat)
    (hf : fetch i = .error ()) :
    fastRun fetch (fuel + 1) i acc calls = (acc, calls + 1) := by
  show (match fetch i with
    | .error _ => (acc, calls + 1)
    | .ok r =>
      if hasMoreAfter r then fastRun fetch fuel (i + 1) (acc + msgCount r) (calls + 1)
      else (acc + msgCount r, calls + 1)) = _
  rw [hf]

/-- The FollowerData record as parsed back from a FOLLOW_COUNT cache value
(src/utils/followerCache.ts). -/
structure FollowerData where
  fid : Nat
  followerCount : Nat
  followingCount : Nat
  lastUpdated : Nat
  deriving Repr, DecidableEq

/-- getCachedFollowerCount (src/utils/followerCache.ts lines 10-19): the
redis.get plus JSON.parse outcome is abstracted as an Except of an optional
parsed record; a store failure is caught and yields null, a missing key
yields null (fail open to the fallback path). -/
def getCachedFollowerCount (read : Except Unit (Option FollowerData)) :
    Option FollowerData :=
  match read with
  | .error _ => none
  | .ok v => v

/-- The FollowCounts result shape of getFollowCounts. -/
structure FollowCounts where
  following : Nat
  followers : Nat
  deriving Repr, DecidableEq

/-- The ReactionsCount result shape of getReactionsCount. -/
structure ReactionsCount where
  likes : Nat
  recasts : Nat
  deriving Repr, DecidableEq

/-- getRepliesCount (src/services/http.ts lines 372-393): full mode runs
getPaginatedCount, fast mode getFastCount; both swallow upstream failures
internally, so the outer catch never fires and the operation never throws. -/
def getRepliesCount (fullCount : Bool) (fetch : Nat → FetchOutcome)
    (timedOut : Nat → Bool) : Nat :=
  if fullCount then getPaginatedCount fetch timedOut else getFastCount fetch

/-- getReactionsCount (src/services/http.ts lines 398-451): likes and recasts
are two independent sub-counts over disjoint upstream filters, each counted
like getRepliesCount. -/
def getReactionsCount (fullCount : Bool)
    (likeFetch recastFetch : Nat → FetchOutcome)
    (timedOutL timedOutR : Nat → Bool) : ReactionsCount :=
  if fullCount then
    ⟨getPaginatedCount likeFetch timedOutL, getPaginatedCount recastFetch timedOutR⟩
  else ⟨getFastCount likeFetch, getFastCount recastFetch⟩

/-- getFollowCounts (src/services/http.ts lines 456-503, the variant without
the cache): following and followers are counted independently in the chosen
mode. -/
def getFollowCounts (fullCount : Bool)
    (followingFetch followersFetch : Nat → FetchOutcome)
    (timedOutA timedOutB : Nat → Bool) : FollowCounts :=
  if fullCount then
    ⟨getPaginatedCount followingFetch timedOutA,
     getPaginatedCount followersFetch timedOutB⟩
  else ⟨getFastCount followingFetch, getFastCount followersFetch⟩

/-- The cache-backed getFollowCounts (src/services/http.ts lines 1184-1254):
the FOLLOW_COUNT cache is consulted before the fast/full dispatch; on a hit
the cached counts are returned and no upstream call is made; on a miss, full
mode runs the two paginated counts while fast mode issues two direct
single-page requests whose rejection the outer handler turns into zero
counts.  Returns the result together with the number of upstream calls
issued. -/
def getFollowCountsCached (cacheRead : Except Unit (Option FollowerData))
    (fullCount : Bool) (followingFetch followersFetch : Nat → FetchOutcome)
    (timedOutA timedOutB : Nat → Bool)
    (fastFollowing fastFollowers : FetchOutcome) : FollowCounts × Nat :=
  match getCachedFollowerCount cacheRead with
  | some d => (⟨d.followingCount, d.followerCount⟩, 0)
  | none =>
    if fullCount then
      (⟨getPaginatedCount followingFetch timedOutA,
        getPaginatedCount followersFetch timedOutB⟩,
       (getPaginatedCountRun followingFetch timedOutA).2 +
         (getPaginatedCountRun followersFetch timedOutB).2)
    else
      match fastFollowing, fastFollowers with
      | .ok a, .ok b => (⟨msgCount a, msgCount b⟩, 2)
      | _, _ => (⟨0, 0⟩, 2)

/-- An upstream environment in which every call fails. -/
def failFetch : Nat → FetchOutcome := fun _ => .error ()

/-- C9: for a subject whose FOLLOW_COUNT cache entry is present, fast-mode
getFollowCounts returns exactly the cached following and follower counts and
issues zero upstream calls. -/
theorem C9_cache_hit_fast (cacheRead : Except Unit (Option FollowerData))
    (d : FollowerData) (followingFetch followersFetch : Nat → FetchOutcome)
    (timedOutA timedOutB : Nat → Bool) (fastFollowing fastFollowers : FetchOutcome)
    (h : getCachedFollowerCount cacheRead = some d) :
    getFollowCountsCached cacheRead false followingFetch followersFetch
      timedOutA timedOutB fastFollowing fastFollowers =
      (⟨d.followingCount, d.followerCount⟩, 0) := by
  simp [getFollowCountsCached, h]

/-- C9 witness: subject 7 cached with followerCount 50 and followingCount 12
is answered from the cache with zero upstream calls even though every
upstream call would fail. -/
theorem C9_cache_hit_fast_witness :
    getFollowCountsCached (.ok (some ⟨7, 50, 12, 0⟩)) false failFetch failFetch
      (fun _ => false) (fun _ => false) (.error ()) (.error ()) =
      (⟨12, 50⟩, 0) :=
  C9_cache_hit_fast (.ok (some ⟨7, 50, 12, 0⟩)) ⟨7, 50, 12, 0⟩
    failFetch failFetch (fun _ => false) (fun _ => false) (.error ()) (.error ()) rfl

/-- C10: the cache lookup precedes the fast/full dispatch: with a cached
FOLLOW_COUNT entry present, getFollowCounts in either mode — in particular
with fullCount = true — returns the cached counts and issues zero upstream
calls, so full mode does not recompute while a snapshot exists. -/
theorem C10_cache_before_dispatch (cacheRead : Except Unit (Option FollowerData))
    (d : FollowerData) (b : Bool)
    (followingFetch followersFetch : Nat → FetchOutcome)
    (timedOutA timedOutB : Nat → Bool) (fastFollowing fastFollowers : FetchOutcome)
    (h : getCachedFollowerCount cacheRead = some d) :
    getFollowCountsCached cacheRead b followingFetch followersFetch
      timedOutA timedOutB fastFollowing fastFollowers =
      (⟨d.followingCount, d.followerCount⟩, 0) := by
  simp [getFollowCountsCached, h]

/-- C10 witness: the cached entry for subject 7 short-circuits full mode. -/
theorem C10_cache_before_dispatch_witness :
    getFollowCountsCached (.ok (some ⟨7, 50, 12, 0⟩)) true failFetch failFetch
      (fun _ => false) (fun _ => false) (.error ()) (.error ()) =
      (⟨12, 50⟩, 0) :=
  C10_cache_before_dispatch (.ok (some ⟨7, 50, 12, 0⟩)) ⟨7, 50, 12, 0⟩ true
    failFetch failFetch (fun _ => false) (fun _ => false) (.error ()) (.error ()) rfl

/-- The item count a call outcome contributes when it succeeded. -/
def okMsg : FetchOutcome → Nat
  | .ok r => msgCount r
  | .error _ => 0

/-- Sum of the item counts of the m successive calls starting at call i. -/
def segSum (fetch : Nat → FetchOutcome) (i : Nat) : Nat → Nat
  | 0 => 0
  | m + 1 => okMsg (fetch i) + segSum fetch (i + 1) m

/-- Whatever the upstream does — failures, deadline, page cap — the
getPaginatedCount loop returns the accumulator plus the item counts of a
prefix of successfully fetched pages. -/
theorem pagedRun_degrades (fetch : Nat → FetchOutcome) (timedOut : Nat → Bool) :
    ∀ fuel i acc calls, ∃ m, m ≤ fuel ∧
      (∀ j, j < m → ∃ r, fetch (i + j) = .ok r) ∧
      (pagedRun fetch timedOut fuel i acc calls).1 = acc + segSum fetch i m := by
  intro fuel
  induction fuel with
  | zero =>
    intro i acc calls
    exact ⟨0, Nat.le_refl 0, fun j hj => absurd hj (Nat.not_lt_zero j),
      by simp [pagedRun, segSum]⟩
  | succ fuel ih =>
    intro i acc calls
    by_cases hti : timedOut i = true
    · refine ⟨0, Nat.zero_le _, fun j hj => absurd hj (Nat.not_lt_zero j), ?_⟩
      show (if timedOut i then (acc, calls) else _).1 = acc + segSum fetch i 0
      rw [if_pos hti]
      simp [segSum]
    · have hti2 : timedOut i = false := by simpa using hti
      cases hf : fetch i with
      | error e =>
        refine ⟨0, Nat.zero_le _, fun j hj => absurd hj (Nat.not_lt_zero j), ?_⟩
        cases e
        rw [pagedRun_step_err fetch timedOut fuel i acc calls hti2 hf]
        simp [segSum]
      | ok r =>
        rw [pagedRun_step_ok fetch timedOut fuel i acc calls r hti2 hf]
        by_cases hm : hasMoreAfter r
        · rw [if_pos hm]
          obtain ⟨m, hm1, hm2, hm3⟩ := ih (i + 1) (acc + msgCount r) (calls + 1)
          refine ⟨m + 1, by omega, ?_, ?_⟩
          · intro j hj
            cases j with
            | zero => exact ⟨r, by simpa using hf⟩
            | succ j =>
              obtain ⟨r2, hr2⟩ := hm2 j (by omega)
              refine ⟨r2, ?_⟩
              rw [show i + (j + 1) = i + 1 + j by omega]
              exact hr2
          · rw [hm3]
            show acc + msgCount r + segSum fetch (i + 1) m =
              acc + (okMsg (fetch i) + segSum fetch (i + 1) m)
            rw [hf]
            show acc + msgCount r + segSum fetch (i + 1) m =
              acc + (msgCount r + segSum fetch (i + 1) m)
            omega
        · rw [if_neg hm]
          refine ⟨1, by omega, ?_, ?_⟩
          · intro j hj
            have hj0 : j = 0 := by omega
            subst hj0
            exact ⟨r, by simpa using hf⟩
          · show acc + msgCount r = acc + (okMsg (fetch i) + segSum fetch (i + 1) 0)
            rw [hf]
            show acc + msgCount r = acc + (msgCount r + 0)
            omega

/-- The getFastCount loop likewise returns the item counts of a prefix of at
most one successfully fetched page. -/
theorem fastCount_degrades (fetch : Nat → FetchOutcome) :
    ∃ m, m ≤ 1 ∧ (∀ j, j < m → ∃ r, fetch j = .ok r) ∧
      getFastCount fetch = segSum fetch 0 m := by
  cases hf : fetch 0 with
  | error e =>
    refine ⟨0, Nat.zero_le _, fun j hj => absurd hj (Nat.not_lt_zero j), ?_⟩
    cases e
    rw [getFastCount, getFastCountRun, fastRun_step_err fetch 0 0 0 0 hf]
    simp [segSum]
  | ok r =>
    refine ⟨1, Nat.le_refl 1, ?_, ?_⟩
    · intro j hj
      have hj0 : j = 0 := by omega
      subst hj0
      exact ⟨r, hf⟩
    · rw [getFastCount, getFastCountRun, fastRun_step_ok fetch 0 0 0 0 r hf]
      by_cases hm : hasMoreAfter r
      · rw [if_pos hm]
        show 0 + msgCount r = okMsg (fetch 0) + segSum fetch 1 0
        rw [hf]
        show 0 + msgCount r = msgCount r + 0
        omega
      · rw [if_neg hm]
        show 0 + msgCount r = okMsg (fetch 0) + segSum fetch 1 0
        rw [hf]
        show 0 + msgCount r = msgCount r + 0
        omega

/-- When every upstream call fails, getPaginatedCount returns zero. -/
theorem paginated_failFetch (timedOut : Nat → Bool) :
    getPaginatedCount failFetch timedOut = 0 := by
  by_cases hti : timedOut 0 = true
  · rw [getPaginatedCount, getPaginatedCountRun]
    show (if timedOut 0 then ((0 : Nat), (0 : Nat)) else _).1 = 0
    rw [if_pos hti]
  · have hti2 : timedOut 0 = false := by simpa using hti
    rw [getPaginatedCount, getPaginatedCountRun,
      pagedRun_step_err failFetch timedOut 99 0 0 0 hti2 rfl]

/-- When every upstream call fails, getFastCount returns zero. -/
theorem fast_failFetch : getFastCount failFetch = 0 := by
  rw [getFastCount, getFastCountRun, fastRun_step_err failFetch 0 0 0 0 rfl]

/-- C5: the count operations never throw and degrade to partial or zero
counts: getPaginatedCount and getFastCount always return the summed item
counts of a successfully fetched prefix of pages (the partial count
accumulated when a failure, the page cap or the deadline stops the loop), and
getRepliesCount, getReactionsCount and getFollowCounts return zero (or zero
pairs) in both modes when every upstream call fails. -/
theorem C5_never_throw_degraded_counts :
    (∀ (fetch : Nat → FetchOutcome) (timedOut : Nat → Bool),
      ∃ m, m ≤ 100 ∧ (∀ j, j < m → ∃ r, fetch j = .ok r) ∧
        getPaginatedCount fetch timedOut = segSum fetch 0 m) ∧
    (∀ fetch : Nat → FetchOutcome,
      ∃ m, m ≤ 1 ∧ (∀ j, j < m → ∃ r, fetch j = .ok r) ∧
        getFastCount fetch = segSum fetch 0 m) ∧
    (∀ (b : Bool) (t : Nat → Bool), getRepliesCount b failFetch t = 0) ∧
    (∀ (b : Bool) (tL tR : Nat → Bool),
      getReactionsCount b failFetch failFetch tL tR = ⟨0, 0⟩) ∧
    (∀ (b : Bool) (tA tB : Nat → Bool),
      getFollowCounts b failFetch failFetch tA tB = ⟨0, 0⟩) := by
  refine ⟨?_, fastCount_degrades, ?_, ?_, ?_⟩
  · intro fetch timedOut
    obtain ⟨m, hm1, hm2, hm3⟩ := pagedRun_degrades fetch timedOut 100 0 0 0
    refine ⟨m, hm1, ?_, ?_⟩
    · intro j hj
      obtain ⟨r, hr⟩ := hm2 j hj
      exact ⟨r, by simpa using hr⟩
    · show (pagedRun fetch timedOut 100 0 0 0).1 = segSum fetch 0 m
      rw [hm3]
      omega
  · intro b t
    cases b <;> simp [getRepliesCount, paginated_failFetch, fast_failFetch]
  · intro b tL tR
    cases b <;> simp [getReactionsCount, paginated_failFetch, fast_failFetch]
  · intro b tA tB
    cases b <;> simp [getFollowCounts, paginated_failFetch, fast_failFetch]
